import Mathlib

/-!
Verification of the Gentle Pomodoro session-lifecycle and logging core.

Shallow embedding of the TypeScript sources:
  - `LogManager` (session recorder) from `src/main.ts` (the `logManager.ts`
    portion of that file);
  - `TimerEngine` from the revised `main.ts` found in `src/unnamed/part_000`
    (the revision the specification describes: its `TimerState` carries
    `taskName` and its `reset()` keeps the logging session alive; the older
    copy of `main.ts` in `src/main.ts` differs only in `reset`, which there
    delegates to `cancel()`).

Timestamps are modelled as natural numbers of milliseconds since the Unix
epoch, in a single fixed time zone (the code reads one ambient wall clock
via `moment()` / `Date.now()`; every operation here takes the current time
explicitly).  Asynchronous file appends are modelled by accumulating the
`(path, line)` pairs the recorder emits, in order.
-/

namespace GentlePomo

/-- Timer / session mode.  The source strings are `"focus"` and `"break"`;
the spec calls the second mode "rest". -/
inductive PomoMode where
  | focus
  | rest
deriving DecidableEq, Repr

/-- Session finalization status, `"finished"` or `"cancelled"`. -/
inductive Status where
  | finished
  | cancelled
deriving DecidableEq, Repr

/-- String rendering of a status, as interpolated into the log line. -/
def statusString : Status → String
  | .finished => "finished"
  | .cancelled => "cancelled"

/-- JS string coercion `taskName || "No Task"`: the empty string is the only
falsy string, so it falls back to the literal `No Task`. -/
def coerceTaskName (name : String) : String :=
  if name = "" then "No Task" else name

/-- The in-progress session record (`SessionLog` in `logManager.ts`;
`endTime` is only set at finalization, see `FinalSession`).  `pauses` is the
ordered list of closed pause intervals, as `(start, end)` timestamp pairs.
`status` is initialised to `cancelled` at creation and overwritten when the
session ends. -/
structure SessionLog where
  mode : PomoMode
  taskName : String
  taskPath : Option String
  scheduledDurationMinutes : Nat
  startTime : Nat
  pauses : List (Nat × Nat)
  status : Status
deriving DecidableEq, Repr

/-- A finalized session record: the in-progress record plus its `endTime`. -/
structure FinalSession extends SessionLog where
  endTime : Nat
deriving DecidableEq, Repr

/-- State of the `LogManager`: the at-most-one in-progress record and the
pending open-pause start timestamp. -/
structure LogSt where
  currentSession : Option SessionLog
  currentPauseStart : Option Nat
deriving DecidableEq, Repr

/-- `LogManager.resumeSession`: if a session is active and a pause is open,
close the pause by appending `(pauseStart, now)` and clear the pending
pause start; otherwise do nothing. -/
def resumeSession (now : Nat) (st : LogSt) : LogSt :=
  match st.currentSession, st.currentPauseStart with
  | some s, some ps =>
      { currentSession := some { s with pauses := s.pauses ++ [(ps, now)] },
        currentPauseStart := none }
  | _, _ => st

/-- `LogManager.startSession`: if a session is already active the call is a
resume and the existing record (in particular its `startTime`) is kept;
otherwise a fresh record is opened with `startTime = now`, no pauses, and
default status `cancelled`. -/
def startSession (mode : PomoMode) (taskName : String) (durationMinutes : Nat)
    (taskPath : Option String) (now : Nat) (st : LogSt) : LogSt :=
  if st.currentSession.isSome then
    resumeSession now st
  else
    let fresh : SessionLog :=
      { mode := mode
        taskName := coerceTaskName taskName
        taskPath := taskPath
        scheduledDurationMinutes := durationMinutes
        startTime := now
        pauses := []
        status := .cancelled }
    { currentSession := some fresh, currentPauseStart := st.currentPauseStart }

/-- `LogManager.pauseSession`: record `now` as the pending pause start
(overwriting any previous pending value); no-op without an active session. -/
def pauseSession (now : Nat) (st : LogSt) : LogSt :=
  if st.currentSession.isSome then
    { st with currentPauseStart := some now }
  else st

/-- `LogManager.updateTask`: rewrite the active record's task fields in
place (with the `|| "No Task"` coercion); no-op without an active session. -/
def updateTask (name : String) (path : Option String) (st : LogSt) : LogSt :=
  match st.currentSession with
  | some s =>
      let s1 : SessionLog := { s with taskName := coerceTaskName name, taskPath := path }
      { st with currentSession := some s1 }
  | none => st

/-- `LogManager.endSession`: no-op without an active session; otherwise any
open pause is closed first (via `resumeSession`, which already checks for a
pending pause start), the record is finalized with `endTime = now` and the
given status, and the manager's state is cleared.  Returns the cleared state
together with the finalized record handed to `writeLog`. -/
def endSession (status : Status) (now : Nat) (st : LogSt) :
    LogSt × Option FinalSession :=
  if st.currentSession.isSome then
    let st1 := resumeSession now st
    (⟨none, none⟩,
      st1.currentSession.map fun s =>
        { toSessionLog := { s with status := status }, endTime := now })
  else (st, none)

/-! Calendar arithmetic for `moment().format`.  Standard civil-calendar
conversions (Gregorian, proleptic), valid for dates on or after 1970-01-01,
which is the range of every timestamp the plugin handles. -/

/-- Days since 1970-01-01 of the civil date `y-m-d` (valid for `y ≥ 1` and
dates on or after the epoch). -/
def daysFromCivil (y m d : Nat) : Nat :=
  let yAdj := if m ≤ 2 then y - 1 else y
  let era := yAdj / 400
  let yoe := yAdj % 400
  let mp := if 2 < m then m - 3 else m + 9
  let doy := (153 * mp + 2) / 5 + d - 1
  let doe := yoe * 365 + yoe / 4 - yoe / 100 + doy
  era * 146097 + doe - 719468

/-- Civil date `(year, month, day)` of the day `z` days after 1970-01-01. -/
def civilFromDays (z : Nat) : Nat × Nat × Nat :=
  let zAdj := z + 719468
  let era := zAdj / 146097
  let doe := zAdj % 146097
  let yoe := (doe - doe / 1460 + doe / 36524 - doe / 146096) / 365
  let doy := doe - (365 * yoe + yoe / 4 - yoe / 100)
  let mp := (5 * doy + 2) / 153
  let d := doy - (153 * mp + 2) / 5 + 1
  let m := if mp < 10 then mp + 3 else mp - 9
  let y := yoe + era * 400 + (if m ≤ 2 then 1 else 0)
  (y, m, d)

/-- Zero padding to two digits, as in the `MM`, `DD`, `HH`, `mm`, `ss`
fields of the moment format strings. -/
def pad2 (n : Nat) : String :=
  if n < 10 then "0" ++ toString n else toString n

/-- `moment(t).format("YYYY-MM-DD")` for an epoch-millisecond timestamp. -/
def formatDate (t : Nat) : String :=
  let c := civilFromDays (t / 86400000)
  toString c.1 ++ "-" ++ pad2 c.2.1 ++ "-" ++ pad2 c.2.2

/-- `moment(t).format("YYYY-MM-DD HH:mm:ss")` for an epoch-millisecond
timestamp. -/
def formatDateTime (t : Nat) : String :=
  let rem := t % 86400000
  formatDate t ++ " " ++ pad2 (rem / 3600000) ++ ":" ++
    pad2 (rem % 3600000 / 60000) ++ ":" ++ pad2 (rem % 60000 / 1000)

/-- Epoch-millisecond timestamp of the civil datetime `y-m-d hh:mm:ss`. -/
def mkTime (y m d hh mm ss : Nat) : Nat :=
  daysFromCivil y m d * 86400000 + hh * 3600000 + mm * 60000 + ss * 1000

/-- Rendering of one pause interval inside the `Pauses::` JSON array. -/
def pauseString (p : Nat × Nat) : String :=
  formatDateTime p.1 ++ " - " ++ formatDateTime p.2

/-- The interleaved `session.pauses.map` of `writeLog`, which builds the
pause strings while accumulating `totalPauseMs` in the same pass.  Returns
the pause strings in order together with the accumulated pause total in
milliseconds. -/
def pausesFold : List (Nat × Nat) → List String × Int
  | [] => ([], 0)
  | p :: rest =>
      let r := pausesFold rest
      (pauseString p :: r.1, ((p.2 : Int) - (p.1 : Int)) + r.2)

/-- JSON escaping of one character (`JSON.stringify` additionally escapes
control characters, which cannot occur in the formatted timestamps fed to
it here). -/
def jsonEscapeChar (c : Char) : String :=
  if c = '"' ∨ c = '\\' then "\\" ++ c.toString else c.toString

/-- `JSON.stringify` of a string value. -/
def jsonString (s : String) : String :=
  "\"" ++ String.join (s.toList.map jsonEscapeChar) ++ "\""

/-- `JSON.stringify` of an array of strings: `[]` when empty, otherwise the
comma-separated quoted elements in brackets. -/
def jsonStringArray (l : List String) : String :=
  "[" ++ String.intercalate "," (l.map jsonString) ++ "]"

/-- The `Total::` value of `writeLog`:
`Math.floor((endTime.diff(startTime) - totalPauseMs) / 1000)`, with the
pause total accumulated by `pausesFold`. -/
def totalSeconds (fs : FinalSession) : Int :=
  (((fs.endTime : Int) - (fs.startTime : Int)) - (pausesFold fs.pauses).2).fdiv 1000

/-- The task text of a focus log line: the raw task name (or the literal
`No Task`), upgraded to a `[[path|name]]` wikilink exactly when a task path
is stored and the name is not `No Task`. -/
def taskRef (taskName : String) (taskPath : Option String) : String :=
  let plain := if taskName = "No Task" then "No Task" else taskName
  match taskPath with
  | some p => if taskName ≠ "No Task" then "[[" ++ p ++ "|" ++ taskName ++ "]]" else plain
  | none => plain

/-- Line assembly of `LogManager.writeLog` (step 4 of the derivation):
focus lines carry Task, Start, End, Scheduled, Pauses, Total and Status;
rest lines carry only Start, End, Scheduled and Total. -/
def writeLogLine (fs : FinalSession) : String :=
  let startFmt := formatDateTime fs.startTime
  let endFmt := formatDateTime fs.endTime
  let scheduledSeconds := fs.scheduledDurationMinutes * 60
  let pauseStrings := (pausesFold fs.pauses).1
  match fs.mode with
  | .focus =>
      "- 🍅 Focus | Task:: " ++ taskRef fs.taskName fs.taskPath ++
        " | Start:: " ++ startFmt ++ " | End:: " ++ endFmt ++
        " | Scheduled:: " ++ toString scheduledSeconds ++
        " | Pauses:: " ++ jsonStringArray pauseStrings ++
        " | Total:: " ++ toString (totalSeconds fs) ++
        " | Status:: " ++ statusString fs.status
  | .rest =>
      "- ☕ Rest | Start:: " ++ startFmt ++ " | End:: " ++ endFmt ++
        " | Scheduled:: " ++ toString scheduledSeconds ++
        " | Total:: " ++ toString (totalSeconds fs)

/-- File name of the daily log, keyed by the record's start time. -/
def logFileName (fs : FinalSession) : String :=
  formatDate fs.startTime ++ "-gentle-pomodoro-log.md"

/-- Full path of the daily log file (`normalizePath` is the identity on the
already-normalized folder/file concatenations built here). -/
def logFilePath (folder : String) (fs : FinalSession) : String :=
  folder ++ "/" ++ logFileName fs

/-- `LogManager.writeLog`: logging is disabled when the folder path is
unset (empty string); otherwise one line is appended to the daily file of
the session's start date.  The file-system effect is modelled as the
`(path, line)` pair appended. -/
def writeLog (folderPath : String) (fs : FinalSession) : Option (String × String) :=
  if folderPath = "" then none
  else some (logFilePath folderPath fs, writeLogLine fs)

/-! The `TimerEngine`, composed with the `LogManager` it drives. -/

/-- The snapshot state of the `TimerEngine` (the revised `main.ts` keeps the
current task name in the snapshot as well).  `remainingMs` is a signed
quantity: negative values mean overtime. -/
structure TimerState where
  mode : PomoMode
  isRunning : Bool
  remainingMs : Int
  totalMs : Int
  taskName : String
deriving DecidableEq, Repr

/-- The plugin settings the timer core reads. -/
structure Settings where
  focusMinutes : Nat
  breakMinutes : Nat
  autoStartBreak : Bool
  autoStartFocus : Bool
  logFolderPath : String
deriving DecidableEq, Repr

/-- Scheduled minutes for a mode, read from the settings. -/
def modeMinutes (cfg : Settings) : PomoMode → Nat
  | .focus => cfg.focusMinutes
  | .rest => cfg.breakMinutes

/-- The mode the timer advances to after a session ends. -/
def nextMode : PomoMode → PomoMode
  | .focus => .rest
  | .rest => .focus

/-- Combined state of the timer engine and the log manager: the snapshot
state, the wall-clock target (`targetTime`, cleared when not counting), the
engine's current task fields, the recorder state, and the log lines emitted
so far (in order). -/
structure Sys where
  state : TimerState
  targetTime : Option Int
  currentTaskName : String
  currentTaskPath : Option String
  log : LogSt
  written : List (String × String)
deriving DecidableEq, Repr

/-- The `logManager.endSession` call as seen from the engine: updates the
recorder state and appends the log line, when one is produced. -/
def endSessionSys (cfg : Settings) (status : Status) (now : Nat) (sys : Sys) : Sys :=
  let r := endSession status now sys.log
  { sys with
    log := r.1
    written := sys.written ++ (r.2.bind (writeLog cfg.logFolderPath)).toList }

/-- `TimerEngine.switchMode`: replaces the snapshot with a fresh state for
the target mode; on auto-start it also opens a logging session and arms the
wall-clock target, otherwise the target is cleared and the loop halted. -/
def switchMode (cfg : Settings) (mode : PomoMode) (autoStart : Bool) (now : Nat)
    (sys : Sys) : Sys :=
  let minutes := modeMinutes cfg mode
  let total : Int := (minutes : Int) * 60 * 1000
  let sys1 : Sys :=
    { sys with state :=
        { mode := mode, isRunning := autoStart, remainingMs := total,
          totalMs := total, taskName := sys.currentTaskName } }
  if autoStart then
    { sys1 with
      log := startSession mode sys1.currentTaskName minutes sys1.currentTaskPath now sys1.log
      targetTime := some ((now : Int) + total) }
  else
    { sys1 with targetTime := none }

/-- `TimerEngine.start`: no-op when already running; otherwise marks the
timer running, starts or resumes the logging session, and sets the target
to `now + remainingMs`. -/
def start (cfg : Settings) (now : Nat) (sys : Sys) : Sys :=
  if sys.state.isRunning then sys
  else
    let minutes := modeMinutes cfg sys.state.mode
    { sys with
      state := { sys.state with isRunning := true }
      log := startSession sys.state.mode sys.currentTaskName minutes sys.currentTaskPath now sys.log
      targetTime := some ((now : Int) + sys.state.remainingMs) }

/-- `TimerEngine.pause`: no-op when not running; otherwise opens a pause on
the recorder, stops the timer and clears the wall-clock target. -/
def pause (now : Nat) (sys : Sys) : Sys :=
  if sys.state.isRunning then
    { sys with
      log := pauseSession now sys.log
      state := { sys.state with isRunning := false }
      targetTime := none }
  else sys

/-- `TimerEngine.skip`: ends the session as `cancelled` in focus mode and
as `finished` in rest mode, then switches to the other mode without
auto-start. -/
def skip (cfg : Settings) (now : Nat) (sys : Sys) : Sys :=
  let status : Status := if sys.state.mode = .focus then .cancelled else .finished
  let sys1 := endSessionSys cfg status now sys
  switchMode cfg (nextMode sys.state.mode) false now sys1

/-- `TimerEngine.handleFinished` and `finish`: ends the session as
`finished`, then switches to the other mode, auto-starting per the
configuration. -/
def finish (cfg : Settings) (now : Nat) (sys : Sys) : Sys :=
  let sys1 := endSessionSys cfg .finished now sys
  match sys.state.mode with
  | .focus => switchMode cfg .rest cfg.autoStartBreak now sys1
  | .rest => switchMode cfg .focus cfg.autoStartFocus now sys1

/-- `TimerEngine.reset` (revision in `src/unnamed/part_000`): restores
`remainingMs` and `totalMs` to the scheduled duration of the current mode,
keeps the logging session untouched, and re-arms (when running) or clears
(when stopped or paused) the wall-clock target.  The older copy of
`main.ts` in `src/main.ts` instead had `reset()` delegate to `cancel()`,
ending the session; the revision deliberately keeps the log going. -/
def reset (cfg : Settings) (now : Nat) (sys : Sys) : Sys :=
  let minutes := modeMinutes cfg sys.state.mode
  let total : Int := (minutes : Int) * 60 * 1000
  let sys1 : Sys :=
    { sys with state := { sys.state with remainingMs := total, totalMs := total } }
  if sys1.state.isRunning then
    { sys1 with targetTime := some ((now : Int) + total) }
  else
    { sys1 with targetTime := none }

/-- `TimerEngine.addMinutes`: shifts the total by `delta` minutes with a
one-minute floor, shifts the remaining time clamped from above by the new
total, and, when running with an armed target, shifts the target by the
post-clamp change in remaining time. -/
def addMinutes (delta : Int) (sys : Sys) : Sys :=
  let deltaMs := delta * 60 * 1000
  let newTotal0 := sys.state.totalMs + deltaMs
  let minTotal : Int := 60 * 1000
  let newTotal := if newTotal0 < minTotal then minTotal else newTotal0
  let oldRemaining := sys.state.remainingMs
  let newRemaining0 := oldRemaining + deltaMs
  let newRemaining := if newTotal < newRemaining0 then newTotal else newRemaining0
  let sys1 : Sys :=
    { sys with state :=
        { sys.state with totalMs := newTotal, remainingMs := newRemaining } }
  if sys1.state.isRunning then
    match sys1.targetTime with
    | some t => { sys1 with targetTime := some (t + (newRemaining - oldRemaining)) }
    | none => sys1
  else sys1

/-! Specification-side definitions, written from the words of the spec
(sections 4.2, 6 and 8) to be compared with the embedded code. -/

/-- Spec, elapsed-time invariant: net duration in seconds is
`floor(((endTime - startTime) - sum of (pauseEnd - pauseStart)) / 1000)`. -/
def specTotalSeconds (fs : FinalSession) : Int :=
  (((fs.endTime : Int) - (fs.startTime : Int))
    - (fs.pauses.map fun p => (p.2 : Int) - (p.1 : Int)).sum).fdiv 1000

/-- Spec, focus line grammar of section 6, assembled from its fields in the
stated order with the stated literal separators. -/
def specFocusLine (task startF endF : String) (scheduled : Nat)
    (pausesJson : String) (total : Int) (status : String) : String :=
  "- 🍅 Focus | Task:: " ++ task ++ " | Start:: " ++ startF ++
    " | End:: " ++ endF ++ " | Scheduled:: " ++ toString scheduled ++
    " | Pauses:: " ++ pausesJson ++ " | Total:: " ++ toString total ++
    " | Status:: " ++ status

/-- Spec, rest line grammar of section 6: Task, Pauses and Status are
omitted entirely. -/
def specRestLine (startF endF : String) (scheduled : Nat) (total : Int) : String :=
  "- ☕ Rest | Start:: " ++ startF ++ " | End:: " ++ endF ++
    " | Scheduled:: " ++ toString scheduled ++ " | Total:: " ++ toString total

/-! Helper lemmas about the interleaved pause fold. -/

/-- The millisecond total accumulated by the interleaved pause fold is the
sum of the closed pause interval lengths. -/
theorem pausesFold_snd (l : List (Nat × Nat)) :
    (pausesFold l).2 = (l.map fun p => (p.2 : Int) - (p.1 : Int)).sum := by
  induction l with
  | nil => simp [pausesFold]
  | cons p t ih => simp [pausesFold, ih]

/-- The pause strings produced by the interleaved pause fold are the
renderings of the intervals, in their original (chronological) order. -/
theorem pausesFold_fst (l : List (Nat × Nat)) :
    (pausesFold l).1 = l.map pauseString := by
  induction l with
  | nil => simp [pausesFold]
  | cons p t ih => simp [pausesFold, ih]

/-! Concrete example values used by the witnesses. -/

/-- A small finalized focus session with two closed pauses. -/
def egSmallFocus : FinalSession :=
  { mode := .focus, taskName := "No Task", taskPath := none,
    scheduledDurationMinutes := 1, startTime := 1000,
    pauses := [(2000, 2500), (3000, 4000)], status := .cancelled,
    endTime := 10000 }

/-- The end-to-end focus scenario of spec section 8: start 2025-12-21
14:00:00, one pause 14:10:00 to 14:12:00, stop 14:25:00, scheduled 25
minutes, linked task. -/
def egScenarioFocus : FinalSession :=
  { mode := .focus, taskName := "Task Name #tag",
    taskPath := some "Path/To/File.md",
    scheduledDurationMinutes := 25, startTime := mkTime 2025 12 21 14 0 0,
    pauses := [(mkTime 2025 12 21 14 10 0, mkTime 2025 12 21 14 12 0)],
    status := .finished, endTime := mkTime 2025 12 21 14 25 0 }

/-- A finalized rest session following the scenario: 14:25:00 to 14:30:00,
scheduled 5 minutes. -/
def egScenarioRest : FinalSession :=
  { mode := .rest, taskName := "No Task", taskPath := none,
    scheduledDurationMinutes := 5, startTime := mkTime 2025 12 21 14 25 0,
    pauses := [], status := .finished, endTime := mkTime 2025 12 21 14 30 0 }

/-- A session that starts just before midnight and ends just after it. -/
def egMidnightFocus : FinalSession :=
  { mode := .focus, taskName := "No Task", taskPath := none,
    scheduledDurationMinutes := 25, startTime := mkTime 2025 12 21 23 58 0,
    pauses := [], status := .finished, endTime := mkTime 2025 12 22 0 3 0 }

/-- The same start instant finalized before midnight. -/
def egMidnightFocusEarly : FinalSession :=
  { egMidnightFocus with endTime := mkTime 2025 12 21 23 59 0 }

/-- Example settings used by the witnesses. -/
def egSettings : Settings :=
  { focusMinutes := 25, breakMinutes := 5, autoStartBreak := false,
    autoStartFocus := false, logFolderPath := "Pomodoro_logs" }

/-- A running system with an active focus session. -/
def egRunningSys : Sys :=
  { state := { mode := .focus, isRunning := true, remainingMs := 90000,
               totalMs := 1500000, taskName := "No Task" },
    targetTime := some 100000, currentTaskName := "No Task",
    currentTaskPath := none,
    log := { currentSession := some egSmallFocus.toSessionLog,
             currentPauseStart := none },
    written := [] }

/-- The same system, not running. -/
def egStoppedSys : Sys :=
  { egRunningSys with
    state := { egRunningSys.state with isRunning := false }, targetTime := none }

/-- The same system with no active session record. -/
def egEmptySys : Sys :=
  { egRunningSys with
    log := { currentSession := none, currentPauseStart := none } }

/-! Claim theorems. -/

/-- C1: for every finalized focus SessionRecord, the `Total::` value that
`writeLog` interpolates into the log line (`totalSeconds`, accumulated by
the interleaved pause fold) equals
`floor(((endTime - startTime) - sum of (pauseEnd - pauseStart)) / 1000)`
seconds, for every number of pauses including zero. -/
theorem focus_total_elapsed_invariant (fs : FinalSession)
    (h : fs.mode = PomoMode.focus) :
    totalSeconds fs = specTotalSeconds fs := by
  have _ := h
  simp [totalSeconds, specTotalSeconds, pausesFold_snd]

/-- Witness for C1 on a concrete focus session with two pauses: elapsed
9000 ms minus 1500 ms of pauses gives 7 whole seconds. -/
theorem focus_total_elapsed_invariant_witness :
    egSmallFocus.mode = PomoMode.focus ∧
      totalSeconds egSmallFocus = specTotalSeconds egSmallFocus ∧
      totalSeconds egSmallFocus = 7 :=
  ⟨rfl, focus_total_elapsed_invariant egSmallFocus rfl, by decide⟩

/-- C6: the log line of a finalized record goes to
`folder/YYYY-MM-DD-gentle-pomodoro-log.md` where the date is the calendar
date of `startTime`; two records with the same `startTime` target the same
file whatever their end times, and the actual write pairs that path with
the line whenever logging is enabled. -/
theorem log_file_keyed_by_start_date (folder : String) (fs gs : FinalSession)
    (h : fs.startTime = gs.startTime) :
    logFilePath folder fs =
        folder ++ "/" ++ formatDate fs.startTime ++ "-gentle-pomodoro-log.md"
    ∧ logFilePath folder fs = logFilePath folder gs
    ∧ (folder ≠ "" →
        writeLog folder fs = some (logFilePath folder fs, writeLogLine fs)) := by
  refine ⟨?_, ?_, ?_⟩
  · simp [logFilePath, logFileName, String.append_assoc]
  · simp [logFilePath, logFileName, h]
  · intro hf
    simp [writeLog, hf]

/-- Witness for C6, the midnight rollover: a session starting 2025-12-21
23:58:00 and ending 2025-12-22 00:03:00 is logged to the 2025-12-21 file. -/
theorem log_file_keyed_by_start_date_witness :
    logFilePath "Pomodoro_logs" egMidnightFocusEarly =
        "Pomodoro_logs/2025-12-21-gentle-pomodoro-log.md"
    ∧ logFilePath "Pomodoro_logs" egMidnightFocus =
        "Pomodoro_logs/2025-12-21-gentle-pomodoro-log.md"
    ∧ writeLog "Pomodoro_logs" egMidnightFocus =
        some (logFilePath "Pomodoro_logs" egMidnightFocus,
          writeLogLine egMidnightFocus) := by
  have h := log_file_keyed_by_start_date "Pomodoro_logs" egMidnightFocusEarly
    egMidnightFocus rfl
  have hm := log_file_keyed_by_start_date "Pomodoro_logs" egMidnightFocus
    egMidnightFocus rfl
  have he : logFilePath "Pomodoro_logs" egMidnightFocusEarly =
      "Pomodoro_logs/2025-12-21-gentle-pomodoro-log.md" := by decide
  exact ⟨he, (h.2.1.symm).trans he, hm.2.2 (by decide)⟩

/-- C9: a second `pauseSession` on an active session overwrites the pending
pause start: the record (and its pause list) is unchanged, the pending
start is the later timestamp, and the interval eventually closed by a
resume uses the later pause start. -/
theorem pauseSession_overwrites_pending_start (st : LogSt) (s : SessionLog)
    (h : st.currentSession = some s) (n1 n2 n3 : Nat) :
    let st2 := pauseSession n2 (pauseSession n1 st)
    st2.currentSession = some s
    ∧ st2.currentPauseStart = some n2
    ∧ (resumeSession n3 st2).currentSession.map (fun x => x.pauses)
        = some (s.pauses ++ [(n2, n3)]) := by
  simp [pauseSession, resumeSession, h]

/-- Witness for C9 on a concrete state: pausing at 50 then 60 and resuming
at 70 records the single interval (60, 70). -/
theorem pauseSession_overwrites_pending_start_witness :
    let st : LogSt :=
      { currentSession := some egSmallFocus.toSessionLog, currentPauseStart := none }
    let st2 := pauseSession 60 (pauseSession 50 st)
    st2.currentSession = some egSmallFocus.toSessionLog
    ∧ st2.currentPauseStart = some 60
    ∧ (resumeSession 70 st2).currentSession.map (fun x => x.pauses)
        = some (egSmallFocus.pauses ++ [(60, 70)]) :=
  pauseSession_overwrites_pending_start
    { currentSession := some egSmallFocus.toSessionLog, currentPauseStart := none }
    egSmallFocus.toSessionLog rfl 50 60 70

/-- C10: the task text of a focus log line is the wikilink
`[[taskPath|taskName]]` exactly when a task path is stored and the name is
not `No Task`; otherwise it is the plain task name (the literal `No Task`
when no task is linked), and `startSession` and `updateTask` coerce an
empty task name to `No Task`. -/
theorem task_field_wikilink_rules (tn p : String) (tp tp2 : Option String)
    (m : PomoMode) (d now : Nat) (st : LogSt) :
    (tn ≠ "No Task" → taskRef tn (some p) = "[[" ++ p ++ "|" ++ tn ++ "]]")
    ∧ taskRef tn none = tn
    ∧ taskRef "No Task" tp = "No Task"
    ∧ coerceTaskName "" = "No Task"
    ∧ (st.currentSession = none →
        (startSession m "" d tp2 now st).currentSession.map (fun s => s.taskName)
          = some "No Task")
    ∧ (updateTask "" tp2 st).currentSession.map (fun s => s.taskName)
        = st.currentSession.map (fun _ => "No Task") := by
  refine ⟨?_, ?_, ?_, ?_, ?_, ?_⟩
  · intro hne
    simp [taskRef, hne]
  · by_cases hn : tn = "No Task" <;> simp [taskRef, hn]
  · cases tp <;> simp [taskRef]
  · simp [coerceTaskName]
  · intro hn
    simp [startSession, hn, coerceTaskName]
  · cases hs : st.currentSession <;> simp [updateTask, hs, coerceTaskName]

/-- Witness for C10 at concrete inputs: a linked named task renders as a
wikilink, an unlinked one as plain text, and the empty name is coerced. -/
theorem task_field_wikilink_rules_witness :
    taskRef "Task Name #tag" (some "Path/To/File.md")
        = "[[Path/To/File.md|Task Name #tag]]"
    ∧ taskRef "Task Name #tag" none = "Task Name #tag"
    ∧ taskRef "No Task" (some "Path/To/File.md") = "No Task"
    ∧ coerceTaskName "" = "No Task"
    ∧ (startSession PomoMode.focus "" 25 none 0
          { currentSession := none, currentPauseStart := none }).currentSession.map
            (fun s => s.taskName) = some "No Task"
    ∧ (updateTask "" none
          { currentSession := some egSmallFocus.toSessionLog,
            currentPauseStart := none }).currentSession.map
            (fun s => s.taskName) = some "No Task" := by
  have h := task_field_wikilink_rules "Task Name #tag" "Path/To/File.md"
    (some "Path/To/File.md") none PomoMode.focus 25 0
    { currentSession := none, currentPauseStart := none }
  have hu := task_field_wikilink_rules "Task Name #tag" "Path/To/File.md"
    (some "Path/To/File.md") none PomoMode.focus 25 0
    { currentSession := some egSmallFocus.toSessionLog, currentPauseStart := none }
  exact ⟨h.1 (by decide), h.2.1, h.2.2.1, h.2.2.2.1,
    h.2.2.2.2.1 rfl, hu.2.2.2.2.2.trans rfl⟩

/-- C3: two `startSession` calls with no intervening `endSession` never
create a second record: after the second call the record's `startTime`,
`mode` and `scheduledDurationMinutes` are those left by the first call, its
pause list has merely closed the pending pause interval (appending
`(pauseStart, now)`) when one was open, and no pause is left pending. -/
theorem startSession_at_most_one_record (st : LogSt)
    (m1 : PomoMode) (t1 : String) (d1 : Nat) (p1 : Option String) (n1 : Nat)
    (m2 : PomoMode) (t2 : String) (d2 : Nat) (p2 : Option String) (n2 : Nat) :
    let st1 := startSession m1 t1 d1 p1 n1 st
    let st2 := startSession m2 t2 d2 p2 n2 st1
    st2.currentSession.map (fun s => s.startTime)
        = st1.currentSession.map (fun s => s.startTime)
    ∧ st2.currentSession.map (fun s => s.mode)
        = st1.currentSession.map (fun s => s.mode)
    ∧ st2.currentSession.map (fun s => s.scheduledDurationMinutes)
        = st1.currentSession.map (fun s => s.scheduledDurationMinutes)
    ∧ st2.currentSession.map (fun s => s.pauses)
        = st1.currentSession.map (fun s =>
            s.pauses ++ (st1.currentPauseStart.map fun ps => (ps, n2)).toList)
    ∧ st2.currentPauseStart = none := by
  cases hs : st.currentSession <;> cases hp : st.currentPauseStart <;>
    simp [startSession, resumeSession, hs, hp]

/-- C7: the guarded no-ops: `start` while running, `pause` while not
running, and `endSession` with no active record each leave the whole system
state unchanged and write nothing. -/
theorem idempotent_noop_guards (cfg : Settings) (status : Status) (now : Nat)
    (sys : Sys) :
    (sys.state.isRunning = true → start cfg now sys = sys)
    ∧ (sys.state.isRunning = false → pause now sys = sys)
    ∧ (sys.log.currentSession = none → endSessionSys cfg status now sys = sys) := by
  refine ⟨?_, ?_, ?_⟩
  · intro h
    simp [start, h]
  · intro h
    simp [pause, h]
  · intro h
    simp [endSessionSys, endSession, h]

/-- Witness for C7 at concrete states: a running system is unchanged by
`start`, a stopped one by `pause`, and one with no active record by
`endSession`. -/
theorem idempotent_noop_guards_witness :
    start egSettings 5000 egRunningSys = egRunningSys
    ∧ pause 5000 egStoppedSys = egStoppedSys
    ∧ endSessionSys egSettings Status.finished 5000 egEmptySys = egEmptySys :=
  ⟨(idempotent_noop_guards egSettings Status.finished 5000 egRunningSys).1 rfl,
   (idempotent_noop_guards egSettings Status.finished 5000 egStoppedSys).2.1 rfl,
   (idempotent_noop_guards egSettings Status.finished 5000 egEmptySys).2.2 rfl⟩

/-- C2: `reset` restores `remainingMs` (and `totalMs`) to the full
scheduled duration of the current mode while leaving the recorder state —
in particular the in-progress record and its `startTime` — completely
untouched: nothing is finalized, no log line is written, and only the
countdown changes. -/
theorem reset_preserves_logging_session (cfg : Settings) (now : Nat) (sys : Sys) :
    let rsys := reset cfg now sys
    rsys.log = sys.log
    ∧ rsys.written = sys.written
    ∧ rsys.state.remainingMs = (modeMinutes cfg sys.state.mode : Int) * 60 * 1000
    ∧ rsys.state.totalMs = (modeMinutes cfg sys.state.mode : Int) * 60 * 1000
    ∧ rsys.state.mode = sys.state.mode
    ∧ rsys.state.isRunning = sys.state.isRunning
    ∧ rsys.state.taskName = sys.state.taskName
    ∧ rsys.currentTaskName = sys.currentTaskName
    ∧ rsys.currentTaskPath = sys.currentTaskPath
    ∧ rsys.log.currentSession.map (fun s => s.startTime)
        = sys.log.currentSession.map (fun s => s.startTime) := by
  by_cases h : sys.state.isRunning <;> simp [reset, h]

/-- C5: `skip` finalizes the session as `cancelled` in focus mode and as
`finished` in rest mode (appending the corresponding log line when one is
emitted), then advances to the other mode stopped, with the remaining time
equal to the full scheduled total of that mode. -/
theorem skip_status_asymmetry_and_advance (cfg : Settings) (now : Nat) (sys : Sys) :
    let ssys := skip cfg now sys
    let status : Status :=
      if sys.state.mode = PomoMode.focus then .cancelled else .finished
    ssys.state.mode = nextMode sys.state.mode
    ∧ ssys.state.isRunning = false
    ∧ ssys.state.remainingMs = ssys.state.totalMs
    ∧ ssys.state.totalMs = (modeMinutes cfg (nextMode sys.state.mode) : Int) * 60 * 1000
    ∧ ssys.targetTime = none
    ∧ ssys.log.currentSession = none
    ∧ ssys.written = sys.written ++
        ((endSession status now sys.log).2.bind (writeLog cfg.logFolderPath)).toList
    ∧ (endSession status now sys.log).2.map (fun f => f.status)
        = sys.log.currentSession.map (fun _ => status) := by
  refine ⟨?_, ?_, ?_, ?_, ?_, ?_, ?_, ?_⟩ <;>
    cases hs : sys.log.currentSession <;>
      cases hp : sys.log.currentPauseStart <;>
        simp [skip, endSessionSys, switchMode, endSession, resumeSession, hs, hp]

/-- C8: `addMinutes delta` sets the total to
`max (totalMs + delta * 60000) 60000`, the remaining time to
`min (remainingMs + delta * 60000) newTotal`, and, when the timer is
running, shifts the wall-clock target by exactly the post-clamp change in
remaining time; everything else is untouched. -/
theorem addMinutes_clamp_and_target_shift (delta : Int) (sys : Sys) :
    let asys := addMinutes delta sys
    asys.state.totalMs = max (sys.state.totalMs + delta * 60 * 1000) (60 * 1000)
    ∧ asys.state.remainingMs
        = min (sys.state.remainingMs + delta * 60 * 1000) asys.state.totalMs
    ∧ asys.targetTime = (if sys.state.isRunning then
        sys.targetTime.map fun t =>
          t + (asys.state.remainingMs - sys.state.remainingMs)
      else sys.targetTime)
    ∧ asys.state.mode = sys.state.mode
    ∧ asys.state.isRunning = sys.state.isRunning
    ∧ asys.log = sys.log
    ∧ asys.written = sys.written := by
  by_cases h : sys.state.isRunning <;>
    cases ht : sys.targetTime <;>
      refine ⟨?_, ?_, ?_, ?_, ?_, ?_, ?_⟩ <;>
        simp [addMinutes, h, ht, max_def, min_def] <;> omega

/-- C4: a finalized focus record renders as the focus grammar line of the
spec — Task, Start, End, Scheduled (minutes times 60), Pauses (a JSON
array of start/end strings in chronological order, `[]` when empty), Total
and Status, in that order — while a rest record renders as the rest line,
omitting Task, Pauses and Status; and each finalization appends exactly the
one line its record derives (when logging is enabled). -/
theorem finalized_log_line_grammar (fs : FinalSession) (cfg : Settings)
    (status : Status) (now : Nat) (sys : Sys) :
    (fs.mode = PomoMode.focus →
        writeLogLine fs =
          specFocusLine (taskRef fs.taskName fs.taskPath)
            (formatDateTime fs.startTime) (formatDateTime fs.endTime)
            (fs.scheduledDurationMinutes * 60)
            (jsonStringArray (fs.pauses.map pauseString))
            (totalSeconds fs) (statusString fs.status))
    ∧ (fs.pauses = [] → jsonStringArray (fs.pauses.map pauseString) = "[]")
    ∧ (fs.mode = PomoMode.rest →
        writeLogLine fs =
          specRestLine (formatDateTime fs.startTime) (formatDateTime fs.endTime)
            (fs.scheduledDurationMinutes * 60) (totalSeconds fs))
    ∧ (cfg.logFolderPath ≠ "" →
        (endSessionSys cfg status now sys).written = sys.written ++
          ((endSession status now sys.log).2.map fun f =>
            (logFilePath cfg.logFolderPath f, writeLogLine f)).toList) := by
  refine ⟨?_, ?_, ?_, ?_⟩
  · intro h
    simp [writeLogLine, h, specFocusLine, pausesFold_fst]
  · intro h
    rw [h]
    decide
  · intro h
    simp [writeLogLine, h, specRestLine]
  · intro h
    cases ho : (endSession status now sys.log).2 <;>
      simp [endSessionSys, ho, writeLog, h]

set_option maxRecDepth 100000 in
/-- Witness for C4: the end-to-end scenario records render to the exact
expected lines (the focus net total is 1380 seconds: 25 minutes elapsed
minus the 2-minute pause). -/
theorem finalized_log_line_grammar_witness :
    writeLogLine egScenarioFocus =
      "- 🍅 Focus | Task:: [[Path/To/File.md|Task Name #tag]] | Start:: 2025-12-21 14:00:00 | End:: 2025-12-21 14:25:00 | Scheduled:: 1500 | Pauses:: [\"2025-12-21 14:10:00 - 2025-12-21 14:12:00\"] | Total:: 1380 | Status:: finished"
    ∧ writeLogLine egScenarioRest =
      "- ☕ Rest | Start:: 2025-12-21 14:25:00 | End:: 2025-12-21 14:30:00 | Scheduled:: 300 | Total:: 300"
    ∧ jsonStringArray (egScenarioRest.pauses.map pauseString) = "[]"
    ∧ (endSessionSys egSettings Status.finished 5000 egRunningSys).written
        = ((endSession Status.finished 5000 egRunningSys.log).2.map fun f =>
            (logFilePath "Pomodoro_logs" f, writeLogLine f)).toList := by
  have hf := (finalized_log_line_grammar egScenarioFocus egSettings
    Status.finished 0 egRunningSys).1 rfl
  have hr := (finalized_log_line_grammar egScenarioRest egSettings
    Status.finished 0 egRunningSys).2.2.1 rfl
  have hp := (finalized_log_line_grammar egScenarioRest egSettings
    Status.finished 0 egRunningSys).2.1 rfl
  have hw := (finalized_log_line_grammar egScenarioFocus egSettings
    Status.finished 5000 egRunningSys).2.2.2 (by decide)
  exact ⟨hf.trans (by decide), hr.trans (by decide), hp,
    hw.trans (by simp [egRunningSys, egSettings])⟩

end GentlePomo
